import Mathlib

/-
Verification development for the live schedule-state engine of the
Teachers-App repository.  The Python methods get_current_period,
get_current_class, get_next_class, update_current_status, save_timings and
the auto-update / blink-animation machinery are shallowly embedded below.
Times of day are modelled as seconds since midnight (a Nat); weekday names
are modelled as strings, matching the strftime day names the code uses.
-/

namespace TeachersApp

/-- A period time window: period number together with start and end of the
window, both in seconds since midnight.  Models one item of the Python
dict self.period_times, period -> (start_time, end_time). -/
structure Window where
  pnum : Nat
  start : Nat
  endT : Nat
deriving DecidableEq, Repr

/-- The status field of get_current_period: the strings before, during,
between and after. -/
inductive Phase where
  | before
  | during
  | between
  | after
deriving DecidableEq, Repr

/-- One row of the timetable table: id, teacher_id, day_of_week,
period_number, class_name, subject. -/
structure Entry where
  id : Nat
  teacherId : Nat
  day : String
  periodNumber : Nat
  className : String
  subject : String
deriving DecidableEq, Repr

/-- Insertion step for sorting windows by period number; together with
sortByNum this models the Python sorted(self.period_times.items()). -/
def insertWin (w : Window) : List Window → List Window
  | [] => [w]
  | x :: t => if w.pnum ≤ x.pnum then w :: x :: t else x :: insertWin w t

/-- Stable sort of windows by period number, the order in which
get_current_period scans the schedule. -/
def sortByNum : List Window → List Window
  | [] => []
  | w :: t => insertWin w (sortByNum t)

/-- Insertion step for sorting period numbers; with sortNats this models
the Python sorted(self.periods) in get_next_class. -/
def insertNat (n : Nat) : List Nat → List Nat
  | [] => [n]
  | x :: t => if n ≤ x then n :: x :: t else x :: insertNat n t

/-- Sort of the configured period-number list. -/
def sortNats : List Nat → List Nat
  | [] => []
  | n :: t => insertNat n (sortNats t)

/-- The scan of get_current_period that looks for a window with
start <= now < end; on a hit it returns the period number and the minutes
remaining, computed as floor of the seconds to the window end divided
by 60 (the max(0, ...) clamp of the source is the truncation of Nat
subtraction). -/
def findDuring : List Window → Nat → Option (Nat × Nat)
  | [], _ => none
  | w :: t, now =>
    if w.start ≤ now ∧ now < w.endT then some (w.pnum, (w.endT - now) / 60)
    else findDuring t now

/-- The fallback scan of get_current_period for the between-periods case:
the first window whose start is still ahead of now. -/
def findBetween : List Window → Nat → Option Nat
  | [], _ => none
  | w :: t, now => if now < w.start then some w.pnum else findBetween t now

/-- End time of the last window of a nonempty list, written with the head
made explicit; models periods_sorted[-1][1][1]. -/
def lastEndOf (w : Window) : List Window → Nat
  | [] => w.endT
  | x :: t => lastEndOf x t

/-- Body of get_current_period, applied to the already sorted window list.
Returns (status, period_number, minutes_remaining). -/
def getCurrentPeriodSorted : List Window → Nat → Phase × Option Nat × Option Nat
  | [], _ => (Phase.after, none, none)
  | w :: t, now =>
    if now < w.start then (Phase.before, some 1, none)
    else if lastEndOf w t ≤ now then (Phase.after, none, none)
    else
      match findDuring (w :: t) now with
      | some pm => (Phase.during, some pm.1, some pm.2)
      | none =>
        match findBetween (w :: t) now with
        | some p => (Phase.between, some p, none)
        | none => (Phase.after, none, none)

/-- get_current_period: sorts the period_times items by period number and
classifies now against the windows. -/
def getCurrentPeriod (periodTimes : List Window) (now : Nat) :
    Phase × Option Nat × Option Nat :=
  getCurrentPeriodSorted (sortByNum periodTimes) now

/-- The timetable query used by get_current_class, get_next_class and
update_highlight: first row with the given teacher_id, day_of_week and
period_number. -/
def lookupEntry (tt : List Entry) (tid : Nat) (day : String) (p : Nat) :
    Option Entry :=
  match tt with
  | [] => none
  | e :: rest =>
    if e.teacherId = tid ∧ e.day = day ∧ e.periodNumber = p then some e
    else lookupEntry rest tid day p

/-- get_current_class: the timetable entry for the current period, or none
when the phase is not during, the period number is falsy, or no row
matches. -/
def getCurrentClass (periodTimes : List Window) (tt : List Entry)
    (tid : Nat) (today : String) (now : Nat) : Option Entry :=
  match getCurrentPeriod periodTimes now with
  | (Phase.during, some p, _) =>
    if p = 0 then none else lookupEntry tt tid today p
  | _ => none

/-- Index of the first occurrence of a period number, models
ordered_periods.index wrapped in Option for the ValueError case. -/
def indexOfP (c : Nat) : List Nat → Option Nat
  | [] => none
  | x :: t => if x = c then some 0 else (indexOfP c t).map (· + 1)

/-- The start_index computation of get_next_class for the during and
between branches: list index of the current period plus one, or 0 when the
index lookup raises ValueError. -/
def nextIndexAfter (ordered : List Nat) (c : Nat) : Nat :=
  match indexOfP c ordered with
  | some i => i + 1
  | none => 0

/-- The full start_index computation of get_next_class, by phase.  A falsy
current period (None or 0) in the during and between branches falls
through to the final else, giving the list length. -/
def nextStartIndex (st : Phase × Option Nat × Option Nat)
    (ordered : List Nat) : Nat :=
  match st.1, st.2.1 with
  | Phase.before, _ => 0
  | Phase.during, some c =>
    if c = 0 then ordered.length else nextIndexAfter ordered c
  | Phase.during, none => ordered.length
  | Phase.between, some c =>
    if c = 0 then ordered.length else nextIndexAfter ordered c
  | Phase.between, none => ordered.length
  | Phase.after, _ => ordered.length

/-- The query loop of get_next_class: first period of the remaining list
whose timetable lookup returns a row. -/
def firstHit (f : Nat → Option Entry) : List Nat → Option Entry
  | [] => none
  | p :: rest =>
    match f p with
    | some e => some e
    | none => firstHit f rest

/-- get_next_class: scan the ordered period numbers from start_index for
the first one with a timetable entry for (teacher, today). -/
def getNextClass (periodTimes : List Window) (periods : List Nat)
    (tt : List Entry) (tid : Nat) (today : String) (now : Nat) :
    Option Entry :=
  firstHit (fun p => lookupEntry tt tid today p)
    ((sortNats periods).drop
      (nextStartIndex (getCurrentPeriod periodTimes now) (sortNats periods)))

/-- Rendering of an optional period number inside an f-string, as Python
would print it. -/
def optNatStr : Option Nat → String
  | some n => toString n
  | none => "None"

/-- The status_var text set by update_current_status, by phase. -/
def updateCurrentStatusLine (periodTimes : List Window) (tt : List Entry)
    (currentTeacherId : Option Nat) (today : String) (now : Nat) : String :=
  match currentTeacherId with
  | none => "No teacher selected"
  | some tid =>
    match getCurrentPeriod periodTimes now with
    | (Phase.before, _, _) => "School has not started yet."
    | (Phase.after, _, _) => "School is over for today."
    | (Phase.during, po, _) =>
      match getCurrentClass periodTimes tt tid today now with
      | some cur =>
        "Currently teaching: " ++ cur.className ++ " (Period " ++
          toString cur.periodNumber ++ ")"
      | none => "Teacher is FREE right now (Period " ++ optNatStr po ++ ")"
    | (Phase.between, po, _) =>
      "Teacher is FREE right now (Before Period " ++ optNatStr po ++ ")"

/-- The default period timings configured in the constructor:
periods 1..8, 08:30 to 14:30 in 45 minute slots, in seconds since
midnight. -/
def defaultPeriodTimes : List Window :=
  [⟨1, 30600, 33300⟩, ⟨2, 33300, 36000⟩, ⟨3, 36000, 38700⟩,
   ⟨4, 38700, 41400⟩, ⟨5, 41400, 44100⟩, ⟨6, 44100, 46800⟩,
   ⟨7, 46800, 49500⟩, ⟨8, 49500, 52200⟩]

/-- Numeric value of a decimal digit character, or none. -/
def digitVal (c : Char) : Option Nat :=
  if c.isDigit then some (c.toNat - 48) else none

/-- Modelled fragment of datetime.time.fromisoformat restricted to the
two-digit HH:MM shape that the period-timings dialog asks for; yields the
time as seconds since midnight, or none on malformed input. -/
def parseTimeHM (s : String) : Option Nat :=
  match s.toList with
  | [h1, h2, c, m1, m2] =>
    if c = ':' then
      match digitVal h1, digitVal h2, digitVal m1, digitVal m2 with
      | some a, some b, some d, some e =>
        if a * 10 + b < 24 ∧ d * 10 + e < 60 then
          some ((a * 10 + b) * 3600 + (d * 10 + e) * 60)
        else none
      | _, _, _, _ => none
    else none
  | _ => none

/-- Two-digit zero-padded rendering of a number below 100. -/
def twoDigits (n : Nat) : String :=
  (if n < 10 then "0" else "") ++ toString n

/-- strftime of a time of day with the %H:%M format used when persisting
period timings. -/
def formatHM (t : Nat) : String :=
  twoDigits (t / 3600) ++ ":" ++ twoDigits (t % 3600 / 60)

/-- The state touched by save_timings: the persisted period_times table
(rows of period number and the two stored strings) and the in-memory
period_times mapping. -/
structure TimingsState where
  db : List (Nat × String × String)
  mem : List Window
deriving DecidableEq, Repr

/-- The two validation failures of save_timings, each carrying the period
number named in the error dialog. -/
inductive SaveError where
  | invalidFormat (pnum : Nat)
  | startNotBeforeEnd (pnum : Nat)
deriving DecidableEq, Repr

/-- The period number the error dialog names. -/
def errPnum : SaveError → Nat
  | SaveError.invalidFormat p => p
  | SaveError.startNotBeforeEnd p => p

/-- A dialog row that save_timings must reject: a time string that fails
to parse, or a start time at or after the end time. -/
def rowBad (r : Nat × String × String) : Prop :=
  parseTimeHM r.2.1 = none ∨ parseTimeHM r.2.2 = none ∨
    ∃ a b, parseTimeHM r.2.1 = some a ∧ parseTimeHM r.2.2 = some b ∧ b ≤ a

/-- The validation loop of save_timings: parse every row and check
start < end, stopping at the first failure; on success it yields the
new_map contents in row order. -/
def validateRows : List (Nat × String × String) →
    Except SaveError (List Window)
  | [] => Except.ok []
  | r :: rest =>
    match parseTimeHM r.2.1, parseTimeHM r.2.2 with
    | some a, some b =>
      if b ≤ a then Except.error (SaveError.startNotBeforeEnd r.1)
      else
        match validateRows rest with
        | Except.error e => Except.error e
        | Except.ok ws => Except.ok (⟨r.1, a, b⟩ :: ws)
    | _, _ => Except.error (SaveError.invalidFormat r.1)

/-- INSERT OR REPLACE into the period_times table, keyed by period
number. -/
def dbUpsert (db : List (Nat × String × String))
    (row : Nat × String × String) : List (Nat × String × String) :=
  if db.any (fun r => r.1 == row.1) then
    db.map (fun r => if r.1 == row.1 then row else r)
  else db ++ [row]

/-- One key of the dict update applied to the in-memory period_times. -/
def memUpsert (mem : List Window) (w : Window) : List Window :=
  if mem.any (fun x => x.pnum == w.pnum) then
    mem.map (fun x => if x.pnum == w.pnum then w else x)
  else mem ++ [w]

/-- save_timings: validate every dialog row, and only when all pass write
the batch to the period_times table and update the in-memory mapping; on
a validation failure nothing is written and the error names the failing
period. -/
def saveTimings (st : TimingsState) (rows : List (Nat × String × String)) :
    TimingsState × Option SaveError :=
  match validateRows rows with
  | Except.error e => (st, some e)
  | Except.ok ws =>
    ({ db := ws.foldl
         (fun d w => dbUpsert d (w.pnum, formatHM w.start, formatHM w.endT))
         st.db,
       mem := ws.foldl memUpsert st.mem }, none)

/-- The three Tk timers of the view: the 60 second status refresh, the
5 second highlight refresh and the 500 ms blink toggle. -/
inductive TimerKind where
  | statusK
  | highlightK
  | blinkK
deriving DecidableEq, Repr

/-- The timer and blink state of the view: the counter generating fresh
after-ids, the pool of pending scheduled callbacks, the three stored
after-id attributes, and the state of the single highlighted cell (its
background, the saved _orig_bg, the blink flag and whether a
current_highlight_btn is armed). -/
structure Animator where
  nextHandle : Nat
  live : List (TimerKind × Nat)
  statusId : Option Nat
  highlightId : Option Nat
  blinkId : Option Nat
  hasBtn : Bool
  btnBg : String
  btnOrig : Option String
  blinkState : Bool
  defaultBg : String
deriving DecidableEq, Repr

/-- The bright green accent colour self.highlight_color. -/
def highlightColor : String := "#00FF84"

/-- The stored after-id attribute for a given timer. -/
def storedId (k : TimerKind) (s : Animator) : Option Nat :=
  match k with
  | TimerKind.statusK => s.statusId
  | TimerKind.highlightK => s.highlightId
  | TimerKind.blinkK => s.blinkId

/-- Overwrite the stored after-id attribute for a given timer. -/
def setStored (k : TimerKind) (v : Option Nat) (s : Animator) : Animator :=
  match k with
  | TimerKind.statusK => { s with statusId := v }
  | TimerKind.highlightK => { s with highlightId := v }
  | TimerKind.blinkK => { s with blinkId := v }

/-- self.after_cancel: drop the pending callback with the given id from
the pool. -/
def cancelHandle (h : Nat) (live : List (TimerKind × Nat)) :
    List (TimerKind × Nat) :=
  live.filter (fun p => !(p.2 == h))

/-- The shared stop pattern: if an after-id is stored for this timer,
cancel it and clear the attribute. -/
def cancelTimer (k : TimerKind) (s : Animator) : Animator :=
  match storedId k s with
  | some h => setStored k none { s with live := cancelHandle h s.live }
  | none => s

/-- self.after plus storing the returned id: schedule a fresh callback
for this timer and remember its id. -/
def armTimer (k : TimerKind) (s : Animator) : Animator :=
  setStored k (some s.nextHandle)
    { s with live := (k, s.nextHandle) :: s.live,
             nextHandle := s.nextHandle + 1 }

/-- The restore step of stop_blink_animation: if the button holds a saved
_orig_bg, write it back and delete the attribute. -/
def restoreOrig (s : Animator) : Animator :=
  match s.hasBtn, s.btnOrig with
  | true, some o => { s with btnBg := o, btnOrig := none }
  | true, none => s
  | false, _ => s

/-- The capture step of start_blink_animation: save the current
background into _orig_bg unless one is already saved. -/
def captureOrig (s : Animator) : Animator :=
  match s.hasBtn, s.btnOrig with
  | true, none => { s with btnOrig := some s.btnBg }
  | true, some _ => s
  | false, _ => s

/-- stop_blink_animation: cancel any scheduled blink callback, then
restore the original background. -/
def stopBlinkAnimation (s : Animator) : Animator :=
  restoreOrig (cancelTimer TimerKind.blinkK s)

/-- start_blink_animation: stop any existing blink, reset blink_state to
False, capture the resting colour, and schedule the first toggle. -/
def startBlinkAnimation (s : Animator) : Animator :=
  armTimer TimerKind.blinkK
    (captureOrig { stopBlinkAnimation s with blinkState := false })

/-- blink_highlight, the fired 500 ms callback: when a target button is
armed, toggle blink_state, paint the accent colour or the saved original,
and reschedule itself; without a target it returns without
rescheduling. -/
def blinkHighlight (s : Animator) : Animator :=
  match s.hasBtn with
  | true =>
    let orig := s.btnOrig.getD s.btnBg
    let s1 := { s with blinkState := !s.blinkState }
    let s2 :=
      if s1.blinkState then { s1 with btnBg := highlightColor }
      else { s1 with btnBg := orig }
    armTimer TimerKind.blinkK s2
  | false => s

/-- stop_auto_update_status: cancel the pending status tick. -/
def stopAutoUpdateStatus (s : Animator) : Animator :=
  cancelTimer TimerKind.statusK s

/-- start_auto_update_status: cancel the previous tick, refresh the
status text (which touches only the display strings, not this state) and
schedule the next tick in 60 seconds. -/
def startAutoUpdateStatus (s : Animator) : Animator :=
  armTimer TimerKind.statusK (stopAutoUpdateStatus s)

/-- stop_auto_update_highlight: cancel the pending highlight tick, then
also stop the blink animation. -/
def stopAutoUpdateHighlight (s : Animator) : Animator :=
  stopBlinkAnimation (cancelTimer TimerKind.highlightK s)

/-- update_highlight: first reset every grid cell (in particular the
modelled target cell) to the default background, then, depending on the
engine outcome, arm the current-class cell and start blinking (some
true), stop blinking (some false), or return early because no teacher is
selected or the phase is not during (none). -/
def updateHighlight (outcome : Option Bool) (s : Animator) : Animator :=
  let s1 := { s with btnBg := s.defaultBg }
  match outcome with
  | none => s1
  | some true => startBlinkAnimation { s1 with hasBtn := true }
  | some false => stopBlinkAnimation s1

/-- start_auto_update_highlight: cancel the previous tick, run
update_highlight once, and schedule the next tick in 5 seconds. -/
def startAutoUpdateHighlight (outcome : Option Bool) (s : Animator) :
    Animator :=
  armTimer TimerKind.highlightK
    (updateHighlight outcome (cancelTimer TimerKind.highlightK s))

/-- The externally invokable start and stop operations of the three
timers; the highlight start carries the engine outcome its
update_highlight call observes. -/
inductive TOp where
  | startS
  | stopS
  | startH (outcome : Option Bool)
  | stopH
  | startB
  | stopB
deriving DecidableEq, Repr

/-- Dispatch one operation. -/
def applyOp : TOp → Animator → Animator
  | TOp.startS, s => startAutoUpdateStatus s
  | TOp.stopS, s => stopAutoUpdateStatus s
  | TOp.startH o, s => startAutoUpdateHighlight o s
  | TOp.stopH, s => stopAutoUpdateHighlight s
  | TOp.startB, s => startBlinkAnimation s
  | TOp.stopB, s => stopBlinkAnimation s

/-- Run a sequence of start and stop operations. -/
def runOps (ops : List TOp) (s : Animator) : Animator :=
  ops.foldl (fun t o => applyOp o t) s

/-- The state right after the constructor: no pending callbacks, no
stored after-ids, no armed button, blink_state True. -/
def initialAnimator : Animator :=
  { nextHandle := 0, live := [], statusId := none, highlightId := none,
    blinkId := none, hasBtn := false, btnBg := "#F0F0F0", btnOrig := none,
    blinkState := true, defaultBg := "#F0F0F0" }

/-- The timer bookkeeping invariant: every pending callback id is below
the fresh counter, pending callbacks and stored after-ids match exactly,
the pool has no duplicates, and pending ids are unique across timers. -/
structure TimerInvariant (s : Animator) : Prop where
  bound : ∀ p ∈ s.live, p.2 < s.nextHandle
  stored_of_mem : ∀ p ∈ s.live, storedId p.1 s = some p.2
  live_of_stored : ∀ k h, storedId k s = some h → (k, h) ∈ s.live
  nodup : s.live.Nodup
  inj : ∀ p ∈ s.live, ∀ q ∈ s.live, p.2 = q.2 → p = q

/-- Number of pending scheduled callbacks of one timer. -/
def liveCount (k : TimerKind) (s : Animator) : Nat :=
  (s.live.filter (fun p => p.1 == k)).length

/-- The colour part of a live blink session: a target is armed, the
captured resting colour is d, and the cell shows the accent exactly when
blink_state is set. -/
def blinkCellInv (d : String) (c : Animator) : Prop :=
  c.hasBtn = true ∧ c.btnOrig = some d ∧
    c.btnBg = (if c.blinkState then highlightColor else d)

/-- A cell as the grid populates it for a taught class: the subject
colour (first palette colour) is on the button, nothing captured yet. -/
def populatedCell : Animator :=
  { initialAnimator with btnBg := "#4CC562" }

/-- Two-window schedule with a five minute gap between period 1
(08:30 to 09:15) and period 2 (09:20 to 10:00). -/
def gapSchedule : List Window :=
  [⟨1, 30600, 33300⟩, ⟨2, 33600, 36000⟩]

/-- A timetable entry for teacher 1 on Monday, period 2. -/
def gapEntry : Entry :=
  ⟨7, 1, "Monday", 2, "7A", "Maths"⟩

/- ------------------------------------------------------------------ -/
/- Theorems.                                                          -/
/- ------------------------------------------------------------------ -/

theorem insertWin_eq_cons (w : Window) (t : List Window)
    (h : ∀ y ∈ t, w.pnum ≤ y.pnum) : insertWin w t = w :: t := by
  cases t with
  | nil => rfl
  | cons x t2 => simp [insertWin, h x (List.mem_cons_self x t2)]

theorem sortByNum_eq_of_sorted (l : List Window)
    (h : List.Pairwise (fun a b => a.pnum ≤ b.pnum) l) : sortByNum l = l := by
  induction l with
  | nil => rfl
  | cons w t ih =>
    obtain ⟨h1, h2⟩ := List.pairwise_cons.mp h
    rw [sortByNum, ih h2, insertWin_eq_cons w t h1]

theorem insertNat_eq_cons (n : Nat) (t : List Nat)
    (h : ∀ y ∈ t, n ≤ y) : insertNat n t = n :: t := by
  cases t with
  | nil => rfl
  | cons x t2 => simp [insertNat, h x (List.mem_cons_self x t2)]

theorem sortNats_eq_of_sorted (l : List Nat)
    (h : List.Pairwise (fun a b => a ≤ b) l) : sortNats l = l := by
  induction l with
  | nil => rfl
  | cons n t ih =>
    obtain ⟨h1, h2⟩ := List.pairwise_cons.mp h
    rw [sortNats, ih h2, insertNat_eq_cons n t h1]

theorem head_endT_le_of_mem (x : Window) (t : List Window) (w : Window)
    (hc : List.Chain' (fun a b => a.endT ≤ b.start) (x :: t))
    (hpos : ∀ y ∈ x :: t, y.start < y.endT)
    (hw : w ∈ t) : x.endT ≤ w.start := by
  induction t generalizing x with
  | nil => cases hw
  | cons y t2 ih =>
    rw [List.chain'_cons] at hc
    rcases List.mem_cons.mp hw with h | h
    · subst h; exact hc.1
    · have hy := ih y hc.2 (fun z hz => hpos z (List.mem_cons_of_mem x hz)) h
      have h2 := hpos y (List.mem_cons_of_mem x (List.mem_cons_self y t2))
      have h3 := hc.1
      omega

theorem lastEndOf_ge_head (x : Window) (t : List Window)
    (hc : List.Chain' (fun a b => a.endT ≤ b.start) (x :: t))
    (hpos : ∀ y ∈ x :: t, y.start < y.endT) :
    x.endT ≤ lastEndOf x t := by
  induction t generalizing x with
  | nil => exact Nat.le_refl _
  | cons y t2 ih =>
    rw [List.chain'_cons] at hc
    have h1 := ih y hc.2 (fun z hz => hpos z (List.mem_cons_of_mem x hz))
    have h2 := hpos y (List.mem_cons_of_mem x (List.mem_cons_self y t2))
    have h3 := hc.1
    show x.endT ≤ lastEndOf y t2
    omega

theorem lastEndOf_ge (x : Window) (t : List Window) (w : Window)
    (hc : List.Chain' (fun a b => a.endT ≤ b.start) (x :: t))
    (hpos : ∀ y ∈ x :: t, y.start < y.endT)
    (hw : w ∈ x :: t) : w.endT ≤ lastEndOf x t := by
  induction t generalizing x with
  | nil =>
    rcases List.mem_cons.mp hw with h | h
    · subst h; exact Nat.le_refl _
    · cases h
  | cons y t2 ih =>
    have hpos2 : ∀ z ∈ y :: t2, z.start < z.endT :=
      fun z hz => hpos z (List.mem_cons_of_mem x hz)
    rcases List.mem_cons.mp hw with h | h
    · subst h
      rw [List.chain'_cons] at hc
      have h1 := lastEndOf_ge_head y t2 hc.2 hpos2
      have h2 := hpos2 y (List.mem_cons_self y t2)
      have h3 := hc.1
      show w.endT ≤ lastEndOf y t2
      omega
    · rw [List.chain'_cons] at hc
      exact ih y hc.2 hpos2 h

theorem lastEndOf_mem (x : Window) (t : List Window) :
    ∃ z ∈ x :: t, lastEndOf x t = z.endT := by
  induction t generalizing x with
  | nil => exact ⟨x, List.mem_cons_self x [], rfl⟩
  | cons y t2 ih =>
    obtain ⟨z, hz, hzeq⟩ := ih y
    exact ⟨z, List.mem_cons_of_mem x hz, hzeq⟩

theorem findDuring_eq_some (l : List Window) (now : Nat) (w : Window)
    (hc : List.Chain' (fun a b => a.endT ≤ b.start) l)
    (hpos : ∀ y ∈ l, y.start < y.endT)
    (hw : w ∈ l) (h1 : w.start ≤ now) (h2 : now < w.endT) :
    findDuring l now = some (w.pnum, (w.endT - now) / 60) := by
  induction l with
  | nil => cases hw
  | cons x t ih =>
    rcases List.mem_cons.mp hw with h | h
    · subst h
      simp only [findDuring]
      rw [if_pos ⟨h1, h2⟩]
    · have hx : x.endT ≤ w.start := head_endT_le_of_mem x t w hc hpos h
      simp only [findDuring]
      rw [if_neg (by omega)]
      exact ih hc.tail (fun z hz => hpos z (List.mem_cons_of_mem x hz)) h

theorem getCurrentPeriodSorted_during (l : List Window) (now : Nat)
    (w : Window)
    (hc : List.Chain' (fun a b => a.endT ≤ b.start) l)
    (hpos : ∀ y ∈ l, y.start < y.endT)
    (hw : w ∈ l) (h1 : w.start ≤ now) (h2 : now < w.endT) :
    getCurrentPeriodSorted l now =
      (Phase.during, some w.pnum, some ((w.endT - now) / 60)) := by
  cases l with
  | nil => cases hw
  | cons x t =>
    have hfs : x.start ≤ now := by
      rcases List.mem_cons.mp hw with h | h
      · subst h; exact h1
      · have ha := head_endT_le_of_mem x t w hc hpos h
        have hb := hpos x (List.mem_cons_self x t)
        omega
    have hlast : now < lastEndOf x t :=
      Nat.lt_of_lt_of_le h2 (lastEndOf_ge x t w hc hpos hw)
    have hfd := findDuring_eq_some (x :: t) now w hc hpos hw h1 h2
    simp only [getCurrentPeriodSorted]
    rw [if_neg (by omega), if_neg (by omega), hfd]

theorem getCurrentPeriod_during (pt : List Window) (now : Nat) (w : Window)
    (hnum : List.Pairwise (fun a b => a.pnum < b.pnum) pt)
    (hchain : List.Chain' (fun a b => a.endT ≤ b.start) pt)
    (hpos : ∀ y ∈ pt, y.start < y.endT)
    (hw : w ∈ pt) (h1 : w.start ≤ now) (h2 : now < w.endT) :
    getCurrentPeriod pt now =
      (Phase.during, some w.pnum, some ((w.endT - now) / 60)) := by
  unfold getCurrentPeriod
  rw [sortByNum_eq_of_sorted pt (hnum.imp (fun hab => Nat.le_of_lt hab))]
  exact getCurrentPeriodSorted_during pt now w hchain hpos hw h1 h2

/-- Claim C1: for every well-formed nonempty period schedule and every
time now inside a window, get_current_period reports phase during with
that window as the active period, and minutes_remaining is the floor of
the seconds from now to the window end divided by 60, never negative. -/
theorem c1_during_window (pt : List Window) (now : Nat) (w : Window)
    (hnum : List.Pairwise (fun a b => a.pnum < b.pnum) pt)
    (hchain : List.Chain' (fun a b => a.endT ≤ b.start) pt)
    (hpos : ∀ y ∈ pt, y.start < y.endT)
    (hw : w ∈ pt) (h1 : w.start ≤ now) (h2 : now < w.endT) :
    getCurrentPeriod pt now =
      (Phase.during, some w.pnum, some ((w.endT - now) / 60)) :=
  getCurrentPeriod_during pt now w hnum hchain hpos hw h1 h2

/-- Witness for C1: the spec example, window 08:30 to 09:15 for
period 1 of the default schedule and now exactly 08:30:00, gives during,
period 1, 45 minutes remaining. -/
theorem c1_during_window_witness :
    getCurrentPeriod defaultPeriodTimes 30600 =
      (Phase.during, some 1, some 45) :=
  c1_during_window defaultPeriodTimes 30600 ⟨1, 30600, 33300⟩
    (by decide)
    (by simp [defaultPeriodTimes, List.chain'_cons])
    (by decide) (by decide) (by decide) (by decide)

/-- Claim C2: with a well-formed nonempty schedule, a now strictly before
every configured start (hence before the earliest) is classified before,
and a now at or after every configured end (hence at or after the latest
end, including now exactly equal to it) is classified after, with no
active entry and no next entry. -/
theorem c2_before_after (pt : List Window) (periods : List Nat)
    (tt : List Entry) (tid : Nat) (today : String) (now : Nat)
    (hnum : List.Pairwise (fun a b => a.pnum < b.pnum) pt)
    (hpos : ∀ y ∈ pt, y.start < y.endT)
    (hne : pt ≠ []) :
    ((∀ y ∈ pt, now < y.start) →
      (getCurrentPeriod pt now).1 = Phase.before) ∧
    ((∀ y ∈ pt, y.endT ≤ now) →
      getCurrentPeriod pt now = (Phase.after, none, none) ∧
      getCurrentClass pt tt tid today now = none ∧
      getNextClass pt periods tt tid today now = none) := by
  have hsort := sortByNum_eq_of_sorted pt
    (hnum.imp (fun hab => Nat.le_of_lt hab))
  constructor
  · intro hbef
    cases pt with
    | nil => exact absurd rfl hne
    | cons x t =>
      unfold getCurrentPeriod
      rw [hsort]
      simp only [getCurrentPeriodSorted]
      rw [if_pos (hbef x (List.mem_cons_self x t))]
  · intro haft
    have hafter : getCurrentPeriod pt now = (Phase.after, none, none) := by
      cases pt with
      | nil => exact absurd rfl hne
      | cons x t =>
        unfold getCurrentPeriod
        rw [hsort]
        simp only [getCurrentPeriodSorted]
        have hx0 : x.start < x.endT := hpos x (List.mem_cons_self x t)
        have hx1 : x.endT ≤ now := haft x (List.mem_cons_self x t)
        rw [if_neg (by omega)]
        obtain ⟨z, hz, hzeq⟩ := lastEndOf_mem x t
        rw [if_pos (by rw [hzeq]; exact haft z hz)]
    refine ⟨hafter, ?_, ?_⟩
    · simp [getCurrentClass, hafter]
    · simp [getNextClass, hafter, nextStartIndex, List.drop_length, firstHit]

/-- Witness for C2: on the default schedule, now 08:29:59 is before, and
now 14:30:00 (exactly the last end) is after with no active and no next
entry. -/
theorem c2_before_after_witness :
    (getCurrentPeriod defaultPeriodTimes 30599).1 = Phase.before ∧
    (getCurrentPeriod defaultPeriodTimes 52200 = (Phase.after, none, none) ∧
     getCurrentClass defaultPeriodTimes [] 1 "Monday" 52200 = none ∧
     getNextClass defaultPeriodTimes [1, 2, 3, 4, 5, 6, 7, 8] [] 1
       "Monday" 52200 = none) :=
  ⟨(c2_before_after defaultPeriodTimes [1, 2, 3, 4, 5, 6, 7, 8] [] 1
      "Monday" 30599 (by decide) (by decide) (by decide)).1 (by decide),
   (c2_before_after defaultPeriodTimes [1, 2, 3, 4, 5, 6, 7, 8] [] 1
      "Monday" 52200 (by decide) (by decide) (by decide)).2 (by decide)⟩

/-- Claim C3: in a well-formed schedule, where adjacent windows may touch
(one window can end exactly where the next starts), a now exactly equal
to a window start is classified during that window, with that window as
the active period, never the preceding one. -/
theorem c3_start_boundary (pt : List Window) (w : Window)
    (hnum : List.Pairwise (fun a b => a.pnum < b.pnum) pt)
    (hchain : List.Chain' (fun a b => a.endT ≤ b.start) pt)
    (hpos : ∀ y ∈ pt, y.start < y.endT)
    (hw : w ∈ pt) :
    getCurrentPeriod pt w.start =
      (Phase.during, some w.pnum, some ((w.endT - w.start) / 60)) :=
  getCurrentPeriod_during pt w.start w hnum hchain hpos hw (Nat.le_refl _)
    (hpos w hw)

/-- Witness for C3: on the default schedule, period 1 ends at 09:15 and
period 2 starts at 09:15; now exactly 09:15:00 belongs to period 2. -/
theorem c3_start_boundary_witness :
    getCurrentPeriod defaultPeriodTimes 33300 =
      (Phase.during, some 2, some 45) :=
  c3_start_boundary defaultPeriodTimes ⟨2, 33300, 36000⟩ (by decide)
    (by simp [defaultPeriodTimes, List.chain'_cons]) (by decide) (by decide)

/-- Claim C6: when now is during a window and the teacher has no
timetable entry for (today, active period), nothing fails: the active
entry is none, the status line reports the teacher as FREE for that
period, and the phase stays during with the active period number set. -/
theorem c6_free_during (pt : List Window) (tt : List Entry) (tid : Nat)
    (today : String) (now : Nat) (w : Window)
    (hnum : List.Pairwise (fun a b => a.pnum < b.pnum) pt)
    (hchain : List.Chain' (fun a b => a.endT ≤ b.start) pt)
    (hpos : ∀ y ∈ pt, y.start < y.endT)
    (hw : w ∈ pt) (h1 : w.start ≤ now) (h2 : now < w.endT)
    (hp0 : w.pnum ≠ 0)
    (hfree : lookupEntry tt tid today w.pnum = none) :
    getCurrentClass pt tt tid today now = none ∧
    updateCurrentStatusLine pt tt (some tid) today now =
      "Teacher is FREE right now (Period " ++ toString w.pnum ++ ")" ∧
    (getCurrentPeriod pt now).1 = Phase.during ∧
    (getCurrentPeriod pt now).2.1 = some w.pnum := by
  have hd := getCurrentPeriod_during pt now w hnum hchain hpos hw h1 h2
  have hgc : getCurrentClass pt tt tid today now = none := by
    simp [getCurrentClass, hd, hp0, hfree]
  refine ⟨hgc, ?_, by rw [hd], by rw [hd]⟩
  simp [updateCurrentStatusLine, hd, hgc, optNatStr]

/-- Witness for C6: the spec example 4, an entry only for Monday
period 1; on Monday with now 09:30:00 (inside the period 2 window) the
teacher is reported free, phase during, period 2. -/
theorem c6_free_during_witness :
    getCurrentClass defaultPeriodTimes
      [⟨1, 1, "Monday", 1, "7A", "Maths"⟩] 1 "Monday" 34200 = none ∧
    updateCurrentStatusLine defaultPeriodTimes
      [⟨1, 1, "Monday", 1, "7A", "Maths"⟩] (some 1) "Monday" 34200 =
      "Teacher is FREE right now (Period 2)" ∧
    (getCurrentPeriod defaultPeriodTimes 34200).1 = Phase.during ∧
    (getCurrentPeriod defaultPeriodTimes 34200).2.1 = some 2 :=
  c6_free_during defaultPeriodTimes [⟨1, 1, "Monday", 1, "7A", "Maths"⟩] 1
    "Monday" 34200 ⟨2, 33300, 36000⟩ (by decide)
    (by simp [defaultPeriodTimes, List.chain'_cons]) (by decide) (by decide)
    (by decide) (by decide) (by decide) (by decide)

/-- Claim C10: on an empty period schedule get_current_period always
returns after with no period number and no minutes remaining; it never
reports before, during or between and never raises. -/
theorem c10_empty_schedule (now : Nat) :
    getCurrentPeriod [] now = (Phase.after, none, none) := rfl

/-- Claim C4, evaluated at the failing input: with windows
08:30 to 09:15 and 09:20 to 10:00 and now 09:16:00 the phase is between
with period 2 the nearest upcoming period, the teacher does have a
Monday period 2 entry, yet get_next_class returns none because its
start_index skips past the nearest upcoming period. -/
theorem c4_between_skips_nearest :
    getCurrentPeriod gapSchedule 33360 = (Phase.between, some 2, none) ∧
    lookupEntry [gapEntry] 1 "Monday" 2 = some gapEntry ∧
    getNextClass gapSchedule [1, 2] [gapEntry] 1 "Monday" 33360 = none := by
  refine ⟨by decide, by decide, by decide⟩

theorem indexOfP_of_mem (c : Nat) (l : List Nat) (h : c ∈ l) :
    ∃ i, indexOfP c l = some i := by
  induction l with
  | nil => cases h
  | cons x t ih =>
    by_cases hx : x = c
    · exact ⟨0, by simp [indexOfP, hx]⟩
    · rcases List.mem_cons.mp h with h1 | h1
      · exact absurd h1.symm hx
      · obtain ⟨i, hi⟩ := ih h1
        exact ⟨i + 1, by simp [indexOfP, hx, hi]⟩

theorem filter_eq_self_of_all (l : List Nat) (p : Nat → Bool)
    (h : ∀ a ∈ l, p a = true) : l.filter p = l := by
  induction l with
  | nil => rfl
  | cons a t ih =>
    rw [List.filter_cons, if_pos (h a (List.mem_cons_self a t)),
      ih (fun b hb => h b (List.mem_cons_of_mem a hb))]

theorem drop_nextIndexAfter (l : List Nat) (c : Nat)
    (hs : List.Pairwise (fun a b => a < b) l) (hm : c ∈ l) :
    l.drop (nextIndexAfter l c) = l.filter (fun p => decide (c < p)) := by
  induction l with
  | nil => cases hm
  | cons x t ih =>
    obtain ⟨hall, ht⟩ := List.pairwise_cons.mp hs
    by_cases hx : x = c
    · subst hx
      have h0 : indexOfP x (x :: t) = some 0 := by simp [indexOfP]
      rw [nextIndexAfter, h0, List.drop_succ_cons, List.drop_zero,
        List.filter_cons, if_neg (by simp)]
      exact (filter_eq_self_of_all t _
        (fun b hb => decide_eq_true (hall b hb))).symm
    · have h1 : c ∈ t := by
        rcases List.mem_cons.mp hm with h2 | h2
        · exact absurd h2.symm hx
        · exact h2
      obtain ⟨j, hj⟩ := indexOfP_of_mem c t h1
      have hidx : indexOfP c (x :: t) = some (j + 1) := by
        simp [indexOfP, hx, hj]
      have hxc : x < c := hall c h1
      have hih := ih ht h1
      rw [nextIndexAfter, hj] at hih
      rw [nextIndexAfter, hidx, List.drop_succ_cons, List.filter_cons,
        if_neg (by simp [Nat.lt_asymm hxc])]
      exact hih

theorem firstHit_eq_none (f : Nat → Option Entry) (l : List Nat)
    (h : ∀ p ∈ l, f p = none) : firstHit f l = none := by
  induction l with
  | nil => rfl
  | cons p t ih =>
    simp [firstHit, h p (List.mem_cons_self p t),
      ih (fun q hq => h q (List.mem_cons_of_mem p hq))]

theorem exists_of_firstHit_eq_some (f : Nat → Option Entry) (l : List Nat)
    (e : Entry) (h : firstHit f l = some e) : ∃ p ∈ l, f p = some e := by
  induction l with
  | nil => exact absurd h (by simp [firstHit])
  | cons p t ih =>
    cases hf : f p with
    | none =>
      simp only [firstHit, hf] at h
      obtain ⟨q, hq, hqe⟩ := ih h
      exact ⟨q, List.mem_cons_of_mem p hq, hqe⟩
    | some e2 =>
      simp only [firstHit, hf] at h
      have he2 := Option.some.inj h
      subst he2
      exact ⟨p, List.mem_cons_self p t, hf⟩

theorem lookupEntry_props (tt : List Entry) (tid : Nat) (day : String)
    (p : Nat) (e : Entry) (h : lookupEntry tt tid day p = some e) :
    e.teacherId = tid ∧ e.day = day ∧ e.periodNumber = p := by
  induction tt with
  | nil => exact absurd h (by simp [lookupEntry])
  | cons x rest ih =>
    by_cases hc : x.teacherId = tid ∧ x.day = day ∧ x.periodNumber = p
    · simp only [lookupEntry, if_pos hc] at h
      have hx := Option.some.inj h
      subst hx
      exact hc
    · simp only [lookupEntry, if_neg hc] at h
      exact ih h

/-- Claim C5: get_next_class scans the ordered period numbers strictly
after the current period (or from the first period when the phase is
before) for the first one with a timetable entry for today; it yields
none when every remaining period today is free, and any entry it returns
is for today and the given teacher, never another day. -/
theorem c5_next_class (pt : List Window) (periods : List Nat)
    (tt : List Entry) (tid : Nat) (today : String) (now : Nat)
    (c : Nat) (m : Option Nat)
    (hps : List.Pairwise (fun a b => a < b) periods) :
    (getCurrentPeriod pt now = (Phase.during, some c, m) → c ≠ 0 →
      c ∈ periods →
      getNextClass pt periods tt tid today now =
        firstHit (fun p => lookupEntry tt tid today p)
          (periods.filter (fun p => decide (c < p)))) ∧
    ((getCurrentPeriod pt now).1 = Phase.before →
      getNextClass pt periods tt tid today now =
        firstHit (fun p => lookupEntry tt tid today p) periods) ∧
    (∀ e, getNextClass pt periods tt tid today now = some e →
      e.day = today ∧ e.teacherId = tid) ∧
    ((∀ p ∈ periods, c < p → lookupEntry tt tid today p = none) →
      getCurrentPeriod pt now = (Phase.during, some c, m) → c ≠ 0 →
      c ∈ periods →
      getNextClass pt periods tt tid today now = none) := by
  have hsort := sortNats_eq_of_sorted periods
    (hps.imp (fun hab => Nat.le_of_lt hab))
  have key : getCurrentPeriod pt now = (Phase.during, some c, m) →
      c ≠ 0 → c ∈ periods →
      getNextClass pt periods tt tid today now =
        firstHit (fun p => lookupEntry tt tid today p)
          (periods.filter (fun p => decide (c < p))) := by
    intro hcur hc0 hcm
    unfold getNextClass
    rw [hsort, hcur]
    simp only [nextStartIndex]
    rw [if_neg hc0, drop_nextIndexAfter periods c hps hcm]
  refine ⟨key, ?_, ?_, ?_⟩
  · intro hb
    unfold getNextClass
    rw [hsort]
    rcases hst : getCurrentPeriod pt now with ⟨ph, po, pm⟩
    rw [hst] at hb
    simp only at hb
    subst hb
    simp [nextStartIndex, List.drop_zero]
  · intro e he
    unfold getNextClass at he
    obtain ⟨p, hp, hpe⟩ := exists_of_firstHit_eq_some _ _ _ he
    have hprops := lookupEntry_props tt tid today p e hpe
    exact ⟨hprops.2.1, hprops.1⟩
  · intro hnone hcur hc0 hcm
    rw [key hcur hc0 hcm]
    refine firstHit_eq_none _ _ (fun p hp => ?_)
    have hmf := List.mem_filter.mp hp
    exact hnone p hmf.1 (of_decide_eq_true hmf.2)

/-- Witness for C5: on the default schedule at 08:30 during period 1,
with an entry only at Monday period 3, the next-class scan equals the
first hit over the periods strictly after period 1. -/
theorem c5_next_class_witness :
    getNextClass defaultPeriodTimes [1, 2, 3, 4, 5, 6, 7, 8]
      [⟨1, 1, "Monday", 3, "8B", "Physics"⟩] 1 "Monday" 30600 =
      firstHit
        (fun p => lookupEntry [⟨1, 1, "Monday", 3, "8B", "Physics"⟩] 1
          "Monday" p)
        ([1, 2, 3, 4, 5, 6, 7, 8].filter (fun p => decide (1 < p))) :=
  (c5_next_class defaultPeriodTimes [1, 2, 3, 4, 5, 6, 7, 8]
    [⟨1, 1, "Monday", 3, "8B", "Physics"⟩] 1 "Monday" 30600 1 (some 45)
    (by decide)).1 (by decide) (by decide) (by decide)

theorem validateRows_error_of_bad (rows : List (Nat × String × String))
    (h : ∃ r ∈ rows, rowBad r) :
    ∃ e, validateRows rows = Except.error e ∧
      ∃ r ∈ rows, rowBad r ∧ errPnum e = r.1 := by
  induction rows with
  | nil =>
    obtain ⟨r, hr, _⟩ := h
    exact absurd hr (List.not_mem_nil r)
  | cons r rest ih =>
    cases hs : parseTimeHM r.2.1 with
    | none =>
      refine ⟨SaveError.invalidFormat r.1, ?_, r,
        List.mem_cons_self r rest, Or.inl hs, rfl⟩
      simp only [validateRows, hs]
    | some a =>
      cases he : parseTimeHM r.2.2 with
      | none =>
        refine ⟨SaveError.invalidFormat r.1, ?_, r,
          List.mem_cons_self r rest, Or.inr (Or.inl he), rfl⟩
        simp only [validateRows, hs, he]
      | some b =>
        by_cases hba : b ≤ a
        · refine ⟨SaveError.startNotBeforeEnd r.1, ?_, r,
            List.mem_cons_self r rest,
            Or.inr (Or.inr ⟨a, b, hs, he, hba⟩), rfl⟩
          simp only [validateRows, hs, he]
          rw [if_pos hba]
        · have hrest : ∃ r2 ∈ rest, rowBad r2 := by
            obtain ⟨r2, hr2, hbad⟩ := h
            rcases List.mem_cons.mp hr2 with h2 | h2
            · subst h2
              rcases hbad with hb1 | hb2 | ⟨a2, b2, ha2, hb2, hba2⟩
              · rw [hs] at hb1; cases hb1
              · rw [he] at hb2; cases hb2
              · rw [hs] at ha2
                rw [he] at hb2
                have ha3 := Option.some.inj ha2
                have hb3 := Option.some.inj hb2
                subst ha3
                subst hb3
                exact absurd hba2 hba
            · exact ⟨r2, h2, hbad⟩
          obtain ⟨e, hve, r2, hr2, hbad2, hpe⟩ := ih hrest
          refine ⟨e, ?_, r2, List.mem_cons_of_mem r hr2, hbad2, hpe⟩
          simp only [validateRows, hs, he]
          rw [if_neg hba, hve]

/-- Claim C7: when any row of a period-timings batch has an unparseable
time or a start at or after its end, save_timings rejects the whole batch
atomically: the persisted table and the in-memory schedule both stay
exactly as before the edit, and the reported error names a failing
period. -/
theorem c7_save_timings_atomic (st : TimingsState)
    (rows : List (Nat × String × String))
    (h : ∃ r ∈ rows, rowBad r) :
    ∃ e, saveTimings st rows = (st, some e) ∧
      ∃ r ∈ rows, rowBad r ∧ errPnum e = r.1 := by
  obtain ⟨e, hve, r, hr, hbad, hpe⟩ := validateRows_error_of_bad rows h
  exact ⟨e, by simp [saveTimings, hve], r, hr, hbad, hpe⟩

/-- Witness for C7: a single row for period 1 with start 09:00 and end
08:30 is rejected, the state is returned unchanged, and the error names
period 1. -/
theorem c7_save_timings_atomic_witness :
    ∃ e, saveTimings ⟨[], defaultPeriodTimes⟩ [(1, "09:00", "08:30")] =
        (⟨[], defaultPeriodTimes⟩, some e) ∧
      ∃ r ∈ [((1 : Nat), "09:00", "08:30")], rowBad r ∧ errPnum e = r.1 :=
  c7_save_timings_atomic ⟨[], defaultPeriodTimes⟩ [(1, "09:00", "08:30")]
    ⟨(1, "09:00", "08:30"), List.mem_cons_self _ _,
      Or.inr (Or.inr ⟨32400, 30600, by decide, by decide, by decide⟩)⟩

theorem storedId_setStored (k k2 : TimerKind) (v : Option Nat)
    (s : Animator) :
    storedId k2 (setStored k v s) = if k2 = k then v else storedId k2 s := by
  cases k <;> cases k2 <;> simp [storedId, setStored]

theorem setStored_live (k : TimerKind) (v : Option Nat) (s : Animator) :
    (setStored k v s).live = s.live := by
  cases k <;> rfl

theorem setStored_nextHandle (k : TimerKind) (v : Option Nat)
    (s : Animator) : (setStored k v s).nextHandle = s.nextHandle := by
  cases k <;> rfl

theorem storedId_live_update (k2 : TimerKind) (s : Animator)
    (lv : List (TimerKind × Nat)) :
    storedId k2 { s with live := lv } = storedId k2 s := by
  cases k2 <;> rfl

theorem storedId_live_nh_update (k2 : TimerKind) (s : Animator)
    (lv : List (TimerKind × Nat)) (n : Nat) :
    storedId k2 { s with live := lv, nextHandle := n } = storedId k2 s := by
  cases k2 <;> rfl

theorem cancelTimer_stored_self (k : TimerKind) (s : Animator) :
    storedId k (cancelTimer k s) = none := by
  cases hst : storedId k s with
  | none => unfold cancelTimer; rw [hst]; exact hst
  | some h0 =>
    unfold cancelTimer
    rw [hst, storedId_setStored]
    simp

theorem cancelTimer_stored_other (k k2 : TimerKind) (s : Animator)
    (hne : k2 ≠ k) : storedId k2 (cancelTimer k s) = storedId k2 s := by
  cases hst : storedId k s with
  | none => unfold cancelTimer; rw [hst]
  | some h0 =>
    unfold cancelTimer
    rw [hst, storedId_setStored, if_neg hne, storedId_live_update]

theorem cancelTimer_nextHandle (k : TimerKind) (s : Animator) :
    (cancelTimer k s).nextHandle = s.nextHandle := by
  cases hst : storedId k s with
  | none => unfold cancelTimer; rw [hst]
  | some h0 =>
    unfold cancelTimer
    rw [hst, setStored_nextHandle]

theorem timerInvariant_of_fields (s t : Animator)
    (hl : t.live = s.live) (hn : t.nextHandle = s.nextHandle)
    (hs : ∀ k, storedId k t = storedId k s)
    (h : TimerInvariant s) : TimerInvariant t := by
  constructor
  · intro p hp
    rw [hl] at hp
    rw [hn]
    exact h.bound p hp
  · intro p hp
    rw [hl] at hp
    rw [hs p.1]
    exact h.stored_of_mem p hp
  · intro k h2 hst
    rw [hs k] at hst
    rw [hl]
    exact h.live_of_stored k h2 hst
  · rw [hl]
    exact h.nodup
  · intro p hp q hq e
    rw [hl] at hp hq
    exact h.inj p hp q hq e

theorem storedId_ext (s t : Animator) (h1 : t.statusId = s.statusId)
    (h2 : t.highlightId = s.highlightId) (h3 : t.blinkId = s.blinkId) :
    ∀ k, storedId k t = storedId k s := by
  intro k
  cases k <;> simp [storedId, h1, h2, h3]

theorem cancelTimer_inv (k : TimerKind) (s : Animator)
    (h : TimerInvariant s) : TimerInvariant (cancelTimer k s) := by
  cases hst : storedId k s with
  | none =>
    unfold cancelTimer
    rw [hst]
    exact h
  | some h0 =>
    unfold cancelTimer
    rw [hst]
    constructor
    · intro p hp
      rw [setStored_live] at hp
      rw [setStored_nextHandle]
      exact h.bound p (List.mem_filter.mp hp).1
    · intro p hp
      rw [setStored_live] at hp
      obtain ⟨hpl, hpf⟩ := List.mem_filter.mp hp
      have hne : p.2 ≠ h0 := by simpa using hpf
      have hm := h.stored_of_mem p hpl
      have hpk : p.1 ≠ k := by
        intro hek
        rw [hek, hst] at hm
        exact hne (Option.some.inj hm).symm
      rw [storedId_setStored, if_neg hpk, storedId_live_update]
      exact hm
    · intro k2 h2 hs2
      by_cases hk2 : k2 = k
      · subst hk2
        rw [storedId_setStored, if_pos rfl] at hs2
        cases hs2
      · rw [storedId_setStored, if_neg hk2, storedId_live_update] at hs2
        have hmem := h.live_of_stored k2 h2 hs2
        rw [setStored_live]
        refine List.mem_filter.mpr ⟨hmem, ?_⟩
        have hkh : (k, h0) ∈ s.live := h.live_of_stored k h0 hst
        have hne : h2 ≠ h0 := by
          intro hh
          have hmem2 : (k2, h0) ∈ s.live := by rw [hh] at hmem; exact hmem
          have heq := h.inj (k2, h0) hmem2 (k, h0) hkh rfl
          exact hk2 (congrArg Prod.fst heq)
        simpa using hne
    · rw [setStored_live]
      exact h.nodup.filter _
    · intro p hp q hq e
      rw [setStored_live] at hp hq
      exact h.inj p (List.mem_filter.mp hp).1 q (List.mem_filter.mp hq).1 e

theorem armTimer_stored_self (k : TimerKind) (s : Animator) :
    storedId k (armTimer k s) = some s.nextHandle := by
  unfold armTimer
  rw [storedId_setStored, if_pos rfl]

theorem armTimer_inv (k : TimerKind) (s : Animator)
    (h : TimerInvariant s) (hk : storedId k s = none) :
    TimerInvariant (armTimer k s) := by
  unfold armTimer
  constructor
  · intro p hp
    rw [setStored_live] at hp
    rw [setStored_nextHandle]
    rcases List.mem_cons.mp hp with h1 | h1
    · rw [h1]
      exact Nat.lt_succ_self _
    · exact Nat.lt_succ_of_lt (h.bound p h1)
  · intro p hp
    rw [setStored_live] at hp
    rcases List.mem_cons.mp hp with h1 | h1
    · rw [h1]
      rw [storedId_setStored, if_pos rfl]
    · have hm := h.stored_of_mem p h1
      have hpk : p.1 ≠ k := by
        intro hek
        rw [hek, hk] at hm
        cases hm
      rw [storedId_setStored, if_neg hpk, storedId_live_nh_update]
      exact hm
  · intro k2 h2 hs2
    rw [setStored_live]
    by_cases hk2 : k2 = k
    · subst hk2
      rw [storedId_setStored, if_pos rfl] at hs2
      have hh := Option.some.inj hs2
      subst hh
      exact List.mem_cons_self _ _
    · rw [storedId_setStored, if_neg hk2, storedId_live_nh_update] at hs2
      exact List.mem_cons_of_mem _ (h.live_of_stored k2 h2 hs2)
  · rw [setStored_live]
    refine List.nodup_cons.mpr ⟨?_, h.nodup⟩
    intro hmem
    exact Nat.lt_irrefl _ (h.bound _ hmem)
  · intro p hp q hq e
    rw [setStored_live] at hp hq
    rcases List.mem_cons.mp hp with h1 | h1 <;>
      rcases List.mem_cons.mp hq with h2 | h2
    · rw [h1, h2]
    · exfalso
      have hb := h.bound q h2
      rw [h1] at e
      have e2 : s.nextHandle = q.2 := e
      omega
    · exfalso
      have hb := h.bound p h1
      rw [h2] at e
      have e2 : p.2 = s.nextHandle := e
      omega
    · exact h.inj p h1 q h2 e

theorem restoreOrig_fields (s : Animator) :
    (restoreOrig s).live = s.live ∧
    (restoreOrig s).nextHandle = s.nextHandle ∧
    (restoreOrig s).statusId = s.statusId ∧
    (restoreOrig s).highlightId = s.highlightId ∧
    (restoreOrig s).blinkId = s.blinkId := by
  unfold restoreOrig
  cases hb : s.hasBtn <;> cases ho : s.btnOrig <;> simp

theorem captureOrig_fields (s : Animator) :
    (captureOrig s).live = s.live ∧
    (captureOrig s).nextHandle = s.nextHandle ∧
    (captureOrig s).statusId = s.statusId ∧
    (captureOrig s).highlightId = s.highlightId ∧
    (captureOrig s).blinkId = s.blinkId := by
  unfold captureOrig
  cases hb : s.hasBtn <;> cases ho : s.btnOrig <;> simp

theorem stopBlink_inv (s : Animator) (h : TimerInvariant s) :
    TimerInvariant (stopBlinkAnimation s) := by
  have hc := cancelTimer_inv TimerKind.blinkK s h
  obtain ⟨hl, hn, h3, h4, h5⟩ :=
    restoreOrig_fields (cancelTimer TimerKind.blinkK s)
  exact timerInvariant_of_fields _ _ hl hn (storedId_ext _ _ h3 h4 h5) hc

theorem stopBlink_stored_blink (s : Animator) :
    storedId TimerKind.blinkK (stopBlinkAnimation s) = none :=
  ((restoreOrig_fields (cancelTimer TimerKind.blinkK s)).2.2.2.2).trans
    (cancelTimer_stored_self TimerKind.blinkK s)

theorem stopBlink_statusId (s : Animator) :
    (stopBlinkAnimation s).statusId = s.statusId :=
  ((restoreOrig_fields (cancelTimer TimerKind.blinkK s)).2.2.1).trans
    (cancelTimer_stored_other TimerKind.blinkK TimerKind.statusK s
      (by decide))

theorem stopBlink_highlightId (s : Animator) :
    (stopBlinkAnimation s).highlightId = s.highlightId :=
  ((restoreOrig_fields (cancelTimer TimerKind.blinkK s)).2.2.2.1).trans
    (cancelTimer_stored_other TimerKind.blinkK TimerKind.highlightK s
      (by decide))

theorem startBlink_inv (s : Animator) (h : TimerInvariant s) :
    TimerInvariant (startBlinkAnimation s) := by
  have hu : TimerInvariant
      ({ stopBlinkAnimation s with blinkState := false }) :=
    timerInvariant_of_fields (stopBlinkAnimation s) _ rfl rfl
      (storedId_ext _ _ rfl rfl rfl) (stopBlink_inv s h)
  obtain ⟨hl, hn, h3, h4, h5⟩ :=
    captureOrig_fields ({ stopBlinkAnimation s with blinkState := false })
  have hcap : TimerInvariant
      (captureOrig ({ stopBlinkAnimation s with blinkState := false })) :=
    timerInvariant_of_fields _ _ hl hn (storedId_ext _ _ h3 h4 h5) hu
  have hstored : storedId TimerKind.blinkK
      (captureOrig ({ stopBlinkAnimation s with blinkState := false })) =
      none :=
    h5.trans (stopBlink_stored_blink s)
  exact armTimer_inv _ _ hcap hstored

theorem startBlink_statusId (s : Animator) :
    (startBlinkAnimation s).statusId = s.statusId :=
  ((captureOrig_fields
      ({ stopBlinkAnimation s with blinkState := false })).2.2.1).trans
    (stopBlink_statusId s)

theorem startBlink_highlightId (s : Animator) :
    (startBlinkAnimation s).highlightId = s.highlightId :=
  ((captureOrig_fields
      ({ stopBlinkAnimation s with blinkState := false })).2.2.2.1).trans
    (stopBlink_highlightId s)

theorem updateHighlight_inv (o : Option Bool) (s : Animator)
    (h : TimerInvariant s) : TimerInvariant (updateHighlight o s) := by
  have hbase : TimerInvariant ({ s with btnBg := s.defaultBg }) :=
    timerInvariant_of_fields s _ rfl rfl
      (storedId_ext _ _ rfl rfl rfl) h
  cases o with
  | none => exact hbase
  | some b =>
    cases b with
    | false => exact stopBlink_inv _ hbase
    | true =>
      refine startBlink_inv _ ?_
      exact timerInvariant_of_fields ({ s with btnBg := s.defaultBg }) _
        rfl rfl (storedId_ext _ _ rfl rfl rfl) hbase

theorem updateHighlight_highlightId (o : Option Bool) (s : Animator) :
    (updateHighlight o s).highlightId = s.highlightId := by
  cases o with
  | none => rfl
  | some b =>
    cases b with
    | false => exact stopBlink_highlightId _
    | true => exact startBlink_highlightId _

theorem startStatus_inv (s : Animator) (h : TimerInvariant s) :
    TimerInvariant (startAutoUpdateStatus s) :=
  armTimer_inv _ _ (cancelTimer_inv TimerKind.statusK s h)
    (cancelTimer_stored_self TimerKind.statusK s)

theorem startHighlight_inv (o : Option Bool) (s : Animator)
    (h : TimerInvariant s) :
    TimerInvariant (startAutoUpdateHighlight o s) := by
  have h1 := cancelTimer_inv TimerKind.highlightK s h
  have h2 := updateHighlight_inv o _ h1
  have h3 : storedId TimerKind.highlightK
      (updateHighlight o (cancelTimer TimerKind.highlightK s)) = none :=
    (updateHighlight_highlightId o
      (cancelTimer TimerKind.highlightK s)).trans
      (cancelTimer_stored_self TimerKind.highlightK s)
  exact armTimer_inv _ _ h2 h3

theorem stopHighlight_inv (s : Animator) (h : TimerInvariant s) :
    TimerInvariant (stopAutoUpdateHighlight s) :=
  stopBlink_inv _ (cancelTimer_inv TimerKind.highlightK s h)

theorem applyOp_inv (op : TOp) (s : Animator) (h : TimerInvariant s) :
    TimerInvariant (applyOp op s) := by
  cases op with
  | startS => exact startStatus_inv s h
  | stopS => exact cancelTimer_inv TimerKind.statusK s h
  | startH o => exact startHighlight_inv o s h
  | stopH => exact stopHighlight_inv s h
  | startB => exact startBlink_inv s h
  | stopB => exact stopBlink_inv s h

theorem runOps_inv (ops : List TOp) (s : Animator)
    (h : TimerInvariant s) : TimerInvariant (runOps ops s) := by
  induction ops generalizing s with
  | nil => exact h
  | cons op rest ih => exact ih _ (applyOp_inv op s h)

theorem timerInvariant_initial : TimerInvariant initialAnimator := by
  constructor
  · intro p hp
    exact absurd hp (List.not_mem_nil p)
  · intro p hp
    exact absurd hp (List.not_mem_nil p)
  · intro k h2 hs
    cases k <;> simp [storedId, initialAnimator] at hs
  · exact List.nodup_nil
  · intro p hp
    exact absurd hp (List.not_mem_nil p)

theorem length_le_one_of_allsame {α : Type} (l : List α) (hn : l.Nodup)
    (he : ∀ a ∈ l, ∀ b ∈ l, a = b) : l.length ≤ 1 := by
  match l with
  | [] => simp
  | [a] => simp
  | a :: b :: t =>
    exfalso
    have hab := he a (by simp) b (by simp)
    rw [List.nodup_cons] at hn
    exact hn.1 (by rw [hab]; exact List.mem_cons_self b t)

theorem liveCount_le_one (k : TimerKind) (s : Animator)
    (h : TimerInvariant s) : liveCount k s ≤ 1 := by
  unfold liveCount
  refine length_le_one_of_allsame _ (h.nodup.filter _) ?_
  intro a ha b hb
  obtain ⟨hal, haf⟩ := List.mem_filter.mp ha
  obtain ⟨hbl, hbf⟩ := List.mem_filter.mp hb
  have hak : a.1 = k := by simpa using haf
  have hbk : b.1 = k := by simpa using hbf
  have h1 := h.stored_of_mem a hal
  have h2 := h.stored_of_mem b hbl
  rw [hak] at h1
  rw [hbk] at h2
  exact h.inj a hal b hbl (Option.some.inj (h1.symm.trans h2))

theorem liveCount_eq_one_of_stored (k : TimerKind) (s : Animator)
    (h : TimerInvariant s) (h0 : Nat) (hs : storedId k s = some h0) :
    liveCount k s = 1 := by
  have hle := liveCount_le_one k s h
  have hmem : (k, h0) ∈ s.live := h.live_of_stored k h0 hs
  have hmf : (k, h0) ∈ s.live.filter (fun p => p.1 == k) :=
    List.mem_filter.mpr ⟨hmem, by simp⟩
  have hpos : 0 < (s.live.filter (fun p => p.1 == k)).length :=
    List.length_pos.mpr (List.ne_nil_of_mem hmf)
  unfold liveCount at hle ⊢
  omega

theorem liveCount_eq_zero_of_none (k : TimerKind) (s : Animator)
    (h : TimerInvariant s) (hs : storedId k s = none) :
    liveCount k s = 0 := by
  unfold liveCount
  rw [List.length_eq_zero]
  refine List.eq_nil_iff_forall_not_mem.mpr (fun a ha => ?_)
  obtain ⟨hal, haf⟩ := List.mem_filter.mp ha
  have hak : a.1 = k := by simpa using haf
  have h1 := h.stored_of_mem a hal
  rw [hak, hs] at h1
  cases h1

/-- Claim C8: starting from the freshly constructed view, after any
sequence of start and stop calls every one of the three timers has at
most one pending scheduled callback; a start of the status, highlight or
blink timer (in particular two starts in a row) always leaves exactly
one pending callback for that timer, and the matching stop leaves zero,
so no further callback of that timer can fire. -/
theorem c8_timer_single_live (ops : List TOp) (o : Option Bool)
    (k : TimerKind) :
    liveCount k (runOps ops initialAnimator) ≤ 1 ∧
    liveCount TimerKind.statusK
      (startAutoUpdateStatus (runOps ops initialAnimator)) = 1 ∧
    liveCount TimerKind.highlightK
      (startAutoUpdateHighlight o (runOps ops initialAnimator)) = 1 ∧
    liveCount TimerKind.blinkK
      (startBlinkAnimation (runOps ops initialAnimator)) = 1 ∧
    liveCount TimerKind.statusK
      (stopAutoUpdateStatus (runOps ops initialAnimator)) = 0 ∧
    liveCount TimerKind.highlightK
      (stopAutoUpdateHighlight (runOps ops initialAnimator)) = 0 ∧
    liveCount TimerKind.blinkK
      (stopBlinkAnimation (runOps ops initialAnimator)) = 0 := by
  have hinv := runOps_inv ops initialAnimator timerInvariant_initial
  refine ⟨liveCount_le_one k _ hinv, ?_, ?_, ?_, ?_, ?_, ?_⟩
  · exact liveCount_eq_one_of_stored _ _ (startStatus_inv _ hinv) _
      (armTimer_stored_self TimerKind.statusK _)
  · exact liveCount_eq_one_of_stored _ _ (startHighlight_inv o _ hinv) _
      (armTimer_stored_self TimerKind.highlightK _)
  · exact liveCount_eq_one_of_stored _ _ (startBlink_inv _ hinv) _
      (armTimer_stored_self TimerKind.blinkK _)
  · exact liveCount_eq_zero_of_none _ _
      (cancelTimer_inv TimerKind.statusK _ hinv)
      (cancelTimer_stored_self TimerKind.statusK _)
  · exact liveCount_eq_zero_of_none _ _ (stopHighlight_inv _ hinv)
      ((stopBlink_highlightId _).trans
        (cancelTimer_stored_self TimerKind.highlightK _))
  · exact liveCount_eq_zero_of_none _ _ (stopBlink_inv _ hinv)
      (stopBlink_stored_blink _)

theorem cancelTimer_colors (k : TimerKind) (s : Animator) :
    (cancelTimer k s).hasBtn = s.hasBtn ∧
    (cancelTimer k s).btnBg = s.btnBg ∧
    (cancelTimer k s).btnOrig = s.btnOrig ∧
    (cancelTimer k s).blinkState = s.blinkState ∧
    (cancelTimer k s).defaultBg = s.defaultBg := by
  cases hst : storedId k s with
  | none =>
    unfold cancelTimer
    rw [hst]
    exact ⟨rfl, rfl, rfl, rfl, rfl⟩
  | some h0 =>
    unfold cancelTimer
    rw [hst]
    cases k <;> exact ⟨rfl, rfl, rfl, rfl, rfl⟩

theorem restoreOrig_none (s : Animator) (hb : s.hasBtn = true)
    (ho : s.btnOrig = none) : restoreOrig s = s := by
  unfold restoreOrig
  rw [hb, ho]

theorem restoreOrig_some (s : Animator) (o : String)
    (hb : s.hasBtn = true) (ho : s.btnOrig = some o) :
    restoreOrig s = { s with btnBg := o, btnOrig := none } := by
  unfold restoreOrig
  rw [hb, ho]

theorem captureOrig_none (s : Animator) (hb : s.hasBtn = true)
    (ho : s.btnOrig = none) :
    captureOrig s = { s with btnOrig := some s.btnBg } := by
  unfold captureOrig
  rw [hb, ho]

theorem startBlink_colors (x : Animator) (hb : x.hasBtn = true)
    (ho : x.btnOrig = none ∨ x.btnOrig = some x.btnBg) :
    (startBlinkAnimation x).hasBtn = true ∧
    (startBlinkAnimation x).btnBg = x.btnBg ∧
    (startBlinkAnimation x).btnOrig = some x.btnBg ∧
    (startBlinkAnimation x).blinkState = false ∧
    (startBlinkAnimation x).defaultBg = x.defaultBg := by
  obtain ⟨c1, c2, c3, c4, c5⟩ := cancelTimer_colors TimerKind.blinkK x
  rcases ho with h | h
  · have hr : stopBlinkAnimation x = cancelTimer TimerKind.blinkK x :=
      restoreOrig_none _ (c1.trans hb) (c3.trans h)
    have hcap : captureOrig
        ({ stopBlinkAnimation x with blinkState := false }) =
        { ({ stopBlinkAnimation x with blinkState := false }) with
          btnOrig := some (stopBlinkAnimation x).btnBg } := by
      refine captureOrig_none _ ?_ ?_
      · show (stopBlinkAnimation x).hasBtn = true
        rw [hr]
        exact c1.trans hb
      · show (stopBlinkAnimation x).btnOrig = none
        rw [hr]
        exact c3.trans h
    unfold startBlinkAnimation
    rw [hcap]
    refine ⟨?_, ?_, ?_, rfl, ?_⟩
    · show (stopBlinkAnimation x).hasBtn = true
      rw [hr]
      exact c1.trans hb
    · show (stopBlinkAnimation x).btnBg = x.btnBg
      rw [hr]
      exact c2
    · show some (stopBlinkAnimation x).btnBg = some x.btnBg
      rw [hr, c2]
    · show (stopBlinkAnimation x).defaultBg = x.defaultBg
      rw [hr]
      exact c5
  · have hr : stopBlinkAnimation x =
        { cancelTimer TimerKind.blinkK x with
          btnBg := x.btnBg, btnOrig := none } :=
      restoreOrig_some _ x.btnBg (c1.trans hb) (c3.trans h)
    have hcap : captureOrig
        ({ stopBlinkAnimation x with blinkState := false }) =
        { ({ stopBlinkAnimation x with blinkState := false }) with
          btnOrig := some (stopBlinkAnimation x).btnBg } := by
      refine captureOrig_none _ ?_ ?_
      · show (stopBlinkAnimation x).hasBtn = true
        rw [hr]
        exact c1.trans hb
      · show (stopBlinkAnimation x).btnOrig = none
        rw [hr]
    unfold startBlinkAnimation
    rw [hcap]
    refine ⟨?_, ?_, ?_, rfl, ?_⟩
    · show (stopBlinkAnimation x).hasBtn = true
      rw [hr]
      exact c1.trans hb
    · show (stopBlinkAnimation x).btnBg = x.btnBg
      rw [hr]
    · show some (stopBlinkAnimation x).btnBg = some x.btnBg
      rw [hr]
    · show (stopBlinkAnimation x).defaultBg = x.defaultBg
      rw [hr]
      exact c5

theorem updateHighlight_armed (s : Animator)
    (horig : s.btnOrig = none ∨ s.btnOrig = some s.defaultBg) :
    (updateHighlight (some true) s).hasBtn = true ∧
    (updateHighlight (some true) s).btnBg = s.defaultBg ∧
    (updateHighlight (some true) s).btnOrig = some s.defaultBg ∧
    (updateHighlight (some true) s).blinkState = false ∧
    (updateHighlight (some true) s).defaultBg = s.defaultBg := by
  have hx : updateHighlight (some true) s =
      startBlinkAnimation
        ({ s with btnBg := s.defaultBg, hasBtn := true }) := rfl
  have ho2 : ({ s with btnBg := s.defaultBg, hasBtn := true }).btnOrig =
      none ∨
      ({ s with btnBg := s.defaultBg, hasBtn := true }).btnOrig =
      some ({ s with btnBg := s.defaultBg, hasBtn := true }).btnBg := by
    rcases horig with h | h
    · exact Or.inl h
    · exact Or.inr h
  obtain ⟨b1, b2, b3, b4, b5⟩ :=
    startBlink_colors ({ s with btnBg := s.defaultBg, hasBtn := true })
      rfl ho2
  rw [hx]
  exact ⟨b1, b2, b3, b4, b5⟩

theorem blinkHighlight_step (c : Animator) (d : String)
    (h1 : c.hasBtn = true) (h2 : c.btnOrig = some d) :
    (blinkHighlight c).hasBtn = true ∧
    (blinkHighlight c).btnOrig = some d ∧
    (blinkHighlight c).blinkState = !c.blinkState ∧
    (blinkHighlight c).btnBg =
      (if (blinkHighlight c).blinkState then highlightColor else d) ∧
    (blinkHighlight c).defaultBg = c.defaultBg := by
  cases hbs : c.blinkState <;>
    simp [blinkHighlight, armTimer, setStored, h1, h2, hbs]

theorem blinkCellInv_iterate (d : String) (n : Nat) (c : Animator)
    (h : blinkCellInv d c) :
    blinkCellInv d (blinkHighlight^[n] c) ∧
    (blinkHighlight^[n] c).defaultBg = c.defaultBg := by
  induction n generalizing c with
  | zero => exact ⟨h, rfl⟩
  | succ m ih =>
    rw [Function.iterate_succ_apply]
    obtain ⟨h1, h2, h3⟩ := h
    obtain ⟨s1, s2, s3, s4, s5⟩ := blinkHighlight_step c d h1 h2
    obtain ⟨ha, hb⟩ := ih (blinkHighlight c) ⟨s1, s2, s4⟩
    exact ⟨ha, hb.trans s5⟩

theorem stopBlink_restore (c : Animator) (d : String)
    (h : blinkCellInv d c) : (stopBlinkAnimation c).btnBg = d := by
  obtain ⟨h1, h2, h3⟩ := h
  obtain ⟨c1, c2, c3, c4, c5⟩ := cancelTimer_colors TimerKind.blinkK c
  have hr := restoreOrig_some (cancelTimer TimerKind.blinkK c) d
    (c1.trans h1) (c3.trans h2)
  show (restoreOrig (cancelTimer TimerKind.blinkK c)).btnBg = d
  rw [hr]

/-- Counterexample for C9 as stated: a cell populated with the subject
colour, then armed for blinking by the highlight refresh and toggled a
full cycle, is restored to the default idle colour, not to the assigned
subject colour, because update_highlight resets every cell to the
default background before the blink start captures the resting
colour. -/
theorem c9_resting_color_counterexample :
    (blinkHighlight (blinkHighlight
      (updateHighlight (some true) populatedCell))).btnBg = "#F0F0F0" ∧
    ¬ (blinkHighlight (blinkHighlight
      (updateHighlight (some true) populatedCell))).btnBg = "#4CC562" := by
  exact ⟨by decide, by decide⟩

/-- Claim C9 (amended): while blinking, each 500 ms toggle alternates
the target cell between the colour captured once at blink start and the
accent colour, and that captured colour is the one written back on every
restore including the final one when blinking stops; but the captured
resting colour is the default idle background (which update_highlight
has just painted over every cell), not the subject colour. -/
theorem c9_blink_resting_color (s : Animator) (n : Nat)
    (horig : s.btnOrig = none ∨ s.btnOrig = some s.defaultBg) :
    (blinkHighlight^[n] (updateHighlight (some true) s)).btnOrig =
      some s.defaultBg ∧
    (blinkHighlight^[n] (updateHighlight (some true) s)).btnBg =
      (if (blinkHighlight^[n] (updateHighlight (some true) s)).blinkState
        then highlightColor else s.defaultBg) ∧
    (blinkHighlight^[n + 1]
        (updateHighlight (some true) s)).blinkState =
      !(blinkHighlight^[n] (updateHighlight (some true) s)).blinkState ∧
    (stopBlinkAnimation
        (blinkHighlight^[n] (updateHighlight (some true) s))).btnBg =
      s.defaultBg := by
  obtain ⟨a1, a2, a3, a4, a5⟩ := updateHighlight_armed s horig
  have harm : blinkCellInv s.defaultBg (updateHighlight (some true) s) :=
    ⟨a1, a3, by simp [a2, a4]⟩
  obtain ⟨hi, hd⟩ := blinkCellInv_iterate s.defaultBg n _ harm
  obtain ⟨i1, i2, i3⟩ := hi
  refine ⟨i2, i3, ?_, stopBlink_restore _ _ ⟨i1, i2, i3⟩⟩
  rw [Function.iterate_succ_apply']
  exact (blinkHighlight_step _ _ i1 i2).2.2.1

/-- Witness for the amended C9: concretely, after arming the populated
cell and two toggles the captured colour is the default idle colour, the
cell shows the accent exactly when the blink flag is set, the flag flips
on the next toggle, and stopping restores the captured default. -/
theorem c9_blink_resting_color_witness :
    (blinkHighlight^[2]
      (updateHighlight (some true) populatedCell)).btnOrig =
      some "#F0F0F0" ∧
    (blinkHighlight^[2]
      (updateHighlight (some true) populatedCell)).btnBg =
      (if (blinkHighlight^[2]
          (updateHighlight (some true) populatedCell)).blinkState
        then highlightColor else "#F0F0F0") ∧
    (blinkHighlight^[3]
        (updateHighlight (some true) populatedCell)).blinkState =
      !(blinkHighlight^[2]
        (updateHighlight (some true) populatedCell)).blinkState ∧
    (stopBlinkAnimation (blinkHighlight^[2]
      (updateHighlight (some true) populatedCell))).btnBg = "#F0F0F0" :=
  c9_blink_resting_color populatedCell 2 (Or.inl rfl)

end TeachersApp
